import Mathlib

/-!
Shallow embedding and verification of two mechanisms of the SageWorks
repository:

* the AWS metadata broker with background refresh
  (src/sageworks/aws_service_broker/aws_service_broker.py), and
* the endpoint batch-prediction error handling with binary-search
  fault isolation (src/sageworks/core/artifacts/endpoint_core.py).

Python dictionaries become Lean functions or association lists, machine
state becomes explicit state passing, exceptions become Except, and the
background refresh thread becomes an explicit separate step
(run_refresh_thread) that may be interleaved after the call that
launched it.
-/

/-- The enumerated metadata categories (class ServiceCategory in
aws_service_broker.py). -/
inductive ServiceCategory where
  | INCOMING_DATA_S3
  | DATA_SOURCES_S3
  | FEATURE_SETS_S3
  | DATA_CATALOG
  | FEATURE_STORE
  | MODELS
  | ENDPOINTS
deriving DecidableEq

/-- All categories in declaration order (the iteration order of the Python
Enum, used by get_all_metadata). -/
def allCategories : List ServiceCategory :=
  [.INCOMING_DATA_S3, .DATA_SOURCES_S3, .FEATURE_SETS_S3, .DATA_CATALOG,
   .FEATURE_STORE, .MODELS, .ENDPOINTS]

/-- The fresh cache is constructed with expire=10 in the source
(Cache(expire=10) / RedisCache(expire=10, postfix=":fresh")). -/
def freshExpireSeconds : Nat := 10

/-- Modelled from the spec: the Cache Store (sageworks/utils/cache.py and
sageworks/utils/redis_cache.py are not under src/; the spec gives the store
interface get/set with optional TTL and says the freshness flag exists iff
it was set within the last TTL seconds).  The broker keeps two stores: the
Snapshot store meta_cache with no expiry, modelled as an Option-valued map,
and the freshness-flag store fresh_cache with a fixed 10 second TTL,
modelled by recording the absolute expiry time of the flag; a get at time
now sees the flag iff now < expiry.  openThreads mirrors cls.open_threads,
the list of launched background refresh threads (we record the category of
each launch). -/
structure BrokerState (Snap : Type) where
  metaCache : ServiceCategory → Option Snap
  freshExpiry : ServiceCategory → Option Nat
  openThreads : List ServiceCategory

/-- Cache get on the freshness-flag store at time now: the stored value is
the boolean True, visible only until its expiry time. -/
def freshGet {Snap : Type} (st : BrokerState Snap) (c : ServiceCategory)
    (now : Nat) : Option Bool :=
  match st.freshExpiry c with
  | none => none
  | some exp => if now < exp then some true else none

/-- AWSServiceBroker.refresh_aws_data: call the Connector for the category
(outcome given by the parameter conn), store the new Snapshot in
meta_cache, then set the freshness flag.  If the Connector raises, the
exception propagates before either store is touched. -/
def refresh_aws_data {Snap E : Type} (conn : ServiceCategory → Except E Snap)
    (st : BrokerState Snap) (c : ServiceCategory) (now : Nat) :
    Except E (BrokerState Snap) :=
  match conn c with
  | .error e => .error e
  | .ok snap =>
      .ok { st with
            metaCache := fun x => if x = c then some snap else st.metaCache x,
            freshExpiry := fun x =>
              if x = c then some (now + freshExpireSeconds) else st.freshExpiry x }

/-- Result of one get_metadata call: the returned value (or the propagated
exception), the broker state afterwards, whether the Connector was invoked
synchronously on the blocking path, and whether a background refresh thread
was launched. -/
structure GetMetaResult (E Snap : Type) where
  result : Except E (Option Snap)
  state : BrokerState Snap
  syncRefresh : Bool
  launched : Bool

/-- AWSServiceBroker.get_metadata.  Three paths, as in the source: no
cached Snapshot or force_fresh means a blocking refresh_aws_data; a cached
Snapshot whose freshness flag is absent means the flag is set, a background
refresh thread is launched (recorded in openThreads, executed later by
run_refresh_thread) and the stale Snapshot is returned; otherwise the fresh
Snapshot is returned with no side effect. -/
def get_metadata {Snap E : Type} (conn : ServiceCategory → Except E Snap)
    (st : BrokerState Snap) (c : ServiceCategory) (force_fresh : Bool)
    (now : Nat) : GetMetaResult E Snap :=
  if (st.metaCache c).isNone || force_fresh then
    match refresh_aws_data conn st c now with
    | .error e => ⟨.error e, st, true, false⟩
    | .ok st1 => ⟨.ok (st1.metaCache c), st1, true, false⟩
  else if (freshGet st c now).isNone then
    let st1 : BrokerState Snap :=
      { st with
        freshExpiry := fun x =>
          if x = c then some (now + freshExpireSeconds) else st.freshExpiry x,
        openThreads := st.openThreads ++ [c] }
    ⟨.ok (st1.metaCache c), st1, false, true⟩
  else
    ⟨.ok (st.metaCache c), st, false, false⟩

/-- Execution of a launched background thread, Thread(target=refresh_aws_data):
it runs refresh_aws_data at some later time; an exception inside the thread
is swallowed by Python threading, leaving the broker state unchanged. -/
def run_refresh_thread {Snap E : Type} (conn : ServiceCategory → Except E Snap)
    (st : BrokerState Snap) (c : ServiceCategory) (now : Nat) :
    BrokerState Snap :=
  match refresh_aws_data conn st c now with
  | .error _ => st
  | .ok st1 => st1

/-- Result of get_all_metadata: the assembled mapping (or the propagated
exception of the first synchronous failure) and the broker state
afterwards. -/
structure AllMetaResult (E Snap : Type) where
  result : Except E (List (ServiceCategory × Option Snap))
  state : BrokerState Snap

/-- The dict comprehension of get_all_metadata, one category at a time in
iteration order; an exception raised by any get_metadata call aborts the
comprehension and propagates, discarding the partial mapping. -/
def get_all_meta_loop {Snap E : Type} (conn : ServiceCategory → Except E Snap)
    (force_fresh : Bool) (now : Nat) :
    BrokerState Snap → List ServiceCategory → AllMetaResult E Snap
  | st, [] => ⟨.ok [], st⟩
  | st, c :: rest =>
    let r := get_metadata conn st c force_fresh now
    match r.result with
    | .error e => ⟨.error e, r.state⟩
    | .ok snap =>
      let r2 := get_all_meta_loop conn force_fresh now r.state rest
      match r2.result with
      | .error e => ⟨.error e, r2.state⟩
      | .ok l => ⟨.ok ((c, snap) :: l), r2.state⟩

/-- AWSServiceBroker.get_all_metadata: fan out get_metadata over every
category. -/
def get_all_metadata {Snap E : Type} (conn : ServiceCategory → Except E Snap)
    (st : BrokerState Snap) (force_fresh : Bool) (now : Nat) :
    AllMetaResult E Snap :=
  get_all_meta_loop conn force_fresh now st allCategories

/-- Python str.rstrip("/") on a string modelled as a list of characters. -/
def rstripSlash (s : List Char) : List Char :=
  (s.reverse.dropWhile (fun ch => ch = '/')).reverse

/-- The slash normalization of get_s3_object_sizes:
prefix = prefix.rstrip("/") + "/" if prefix else "". -/
def normPfx (pfx : List Char) : List Char :=
  if pfx = [] then [] else rstripSlash pfx ++ ['/']

/-- Python list/str startswith test: chStarts pat s is true iff pat is an
initial segment of s. -/
def chStarts : List Char → List Char → Bool
  | [], _ => true
  | _ :: _, [] => false
  | a :: as, b :: bs => a = b && chStarts as bs

/-- Python substring containment (the expression: pat in hay). -/
def chContains (hay pat : List Char) : Bool :=
  (List.range (hay.length + 1)).any (fun i => chStarts pat (hay.drop i))

/-- The summation loop of get_s3_object_sizes over the S3 metadata mapping
(file key, info with ContentLength), after prefix normalization:
for file, info in meta_data.items(): if prefix in file: total += ContentLength. -/
def s3SizeLoop (meta : List (List Char × Nat)) (pfx : List Char) : Nat :=
  let p := normPfx pfx
  meta.foldl (fun acc kv => if chContains kv.1 p then acc + kv.2 else acc) 0

/-- AWSServiceBroker.get_s3_object_sizes: get the metadata for the category
through get_metadata (default force_fresh), then sum ContentLength over the
objects whose key contains the normalized prefix.  The .ok none case cannot
occur (get_metadata_ok_isSome below); the source would raise there, we
total it to the empty sum. -/
def get_s3_object_sizes {E : Type}
    (conn : ServiceCategory → Except E (List (List Char × Nat)))
    (st : BrokerState (List (List Char × Nat))) (c : ServiceCategory)
    (pfx : List Char) (now : Nat) :
    Except E Nat × BrokerState (List (List Char × Nat)) :=
  let r := get_metadata conn st c false now
  match r.result with
  | .error e => (.error e, r.state)
  | .ok md => (.ok (s3SizeLoop (md.getD []) pfx), r.state)

/-- A cell value in a DataFrame; np.NaN is the distinguished nan. -/
inductive Value where
  | nan
  | nat (n : Nat)
deriving DecidableEq

/-- A DataFrame row, as an association list from column name to value
(pandas rows addressed by column label). -/
abbrev DFRow : Type := List (String × Value)

/-- Value of a row at a column (NaN when the column is absent, as for a
freshly created column in pandas). -/
def DFRow.get (r : DFRow) (c : String) : Value :=
  match r.find? (fun p => p.1 = c) with
  | some p => p.2
  | none => Value.nan

/-- A pandas DataFrame: ordered column labels and a list of rows. -/
structure DF where
  columns : List String
  rows : List DFRow
deriving DecidableEq

/-- Row slice feature_df[0:k] (columns unchanged). -/
def DF.takeRows (df : DF) (k : Nat) : DF :=
  ⟨df.columns, df.rows.take k⟩

/-- Row slice feature_df[k:len] (columns unchanged). -/
def DF.dropRows (df : DF) (k : Nat) : DF :=
  ⟨df.columns, df.rows.drop k⟩

/-- pd.concat([df1, df2], ignore_index=True): rows appended, columns the
union keeping first appearance order. -/
def DF.concat (df1 df2 : DF) : DF :=
  ⟨df1.columns ++ df2.columns.filter (fun c => ¬ df1.columns.contains c),
   df1.rows ++ df2.rows⟩

/-- A botocore ClientError, identified by its error code
(err.response["Error"]["Code"] in the source). -/
structure ClientErr where
  code : String
deriving DecidableEq

/-- EndpointCore._error_df: build a one-row DataFrame whose columns are
all_columns, every cell np.NaN, then write back the original values of
every column of the incoming df (error_df[column] = df[column].values);
a df column absent from all_columns is appended.  Net effect per output
column: the original value when the column is in df.columns, NaN
otherwise. -/
def error_df (df : DF) (all_columns : List String) : DF :=
  let outCols := all_columns ++ df.columns.filter (fun c => ¬ all_columns.contains c)
  ⟨outCols,
   df.rows.map (fun r =>
     outCols.map (fun c =>
       (c, if df.columns.contains c then r.get c else Value.nan)))⟩

/-- Result of one _endpoint_error_handling call: the returned DataFrame or
the re-raised exception, the value of self.endpoint_return_columns
afterwards, and the list of batches submitted to predictor.predict, in
submission order. -/
structure HandleResult where
  out : Except ClientErr DF
  cols : Option (List String)
  calls : List DF

instance : DecidableEq (Except ClientErr DF) := fun a b =>
  match a, b with
  | .error e1, .error e2 =>
    if h : e1 = e2 then .isTrue (by rw [h]) else .isFalse (by simp [h])
  | .ok d1, .ok d2 =>
    if h : d1 = d2 then .isTrue (by rw [h]) else .isFalse (by simp [h])
  | .error _, .ok _ => .isFalse (by simp)
  | .ok _, .error _ => .isFalse (by simp)

/-- EndpointCore._endpoint_error_handling.  predict abstracts
predictor.predict on the CSV-serialized batch: it returns the results
DataFrame or raises a ClientError.  cols is self.endpoint_return_columns
(None until the first success).  On success the return columns are
captured; a ClientError with code "ModelError" is re-raised immediately; a
one-row batch is padded with error_df when a known-good column shape
exists, else re-raised; any larger batch is split at its midpoint and both
halves are processed left to right, threading cols.  The fuel argument
bounds the recursion depth (the Python original recurses unboundedly, and
diverges into RecursionError if predict keeps failing on an empty batch);
none marks fuel exhaustion and fuel = rows + 1 is always enough on
nonempty batches (see the lemmas below). -/
def endpoint_error_handling (predict : DF → Except ClientErr DF) :
    Nat → Option (List String) → DF → Option HandleResult
  | 0, _, _ => none
  | fuel + 1, cols, df =>
    match predict df with
    | .ok results_df => some ⟨.ok results_df, some results_df.columns, [df]⟩
    | .error err =>
      if err.code = "ModelError" then
        some ⟨.error err, cols, [df]⟩
      else if df.rows.length = 1 then
        match cols with
        | none => some ⟨.error err, none, [df]⟩
        | some cs => some ⟨.ok (error_df df cs), some cs, [df]⟩
      else
        let split := df.rows.length / 2
        match endpoint_error_handling predict fuel cols (df.takeRows split) with
        | none => none
        | some r1 =>
          match r1.out with
          | .error e => some ⟨.error e, r1.cols, df :: r1.calls⟩
          | .ok df1 =>
            match endpoint_error_handling predict fuel r1.cols (df.dropRows split) with
            | none => none
            | some r2 =>
              match r2.out with
              | .error e => some ⟨.error e, r2.cols, df :: r1.calls ++ r2.calls⟩
              | .ok df2 =>
                some ⟨.ok (DF.concat df1 df2), r2.cols, df :: r1.calls ++ r2.calls⟩

/-- The one placeholder row built by error_df for a one-row input with
columns inCols: original values for every input column, NaN for the
remaining known-good return columns. -/
def placeholderRow (inCols allCols : List String) (r : DFRow) : DFRow :=
  (allCols ++ inCols.filter (fun c => ¬ allCols.contains c)).map
    (fun c => (c, if inCols.contains c then r.get c else Value.nan))

/-- The expected per-row outcome of a bisected batch: a placeholder for a
bad row, the real prediction for a good one. -/
def resultRow (bad : DFRow → Bool) (realRow : DFRow → DFRow)
    (inCols allCols : List String) (r : DFRow) : DFRow :=
  if bad r then placeholderRow inCols allCols r else realRow r

/-! Concrete fixtures used by counterexamples and witnesses. -/

def emptyBrokerSt : BrokerState Nat := ⟨fun _ => none, fun _ => none, []⟩

def stModels42 : BrokerState Nat :=
  ⟨fun c => if c = .MODELS then some 42 else none, fun _ => none, []⟩

def warmBrokerSt : BrokerState Nat := ⟨fun _ => some 5, fun _ => none, []⟩

def connFailU : ServiceCategory → Except Unit Nat := fun _ => .error ()

def connOk7 : ServiceCategory → Except Unit Nat := fun _ => .ok 7

def connIncomingFails : ServiceCategory → Except Unit Nat :=
  fun c => if c = .INCOMING_DATA_S3 then .error () else .ok 1

def colX : String := "x"

def colPred : String := "prediction"

def mkRow (n : Nat) : DFRow := [(colX, Value.nat n)]

/-- In the fixtures, a row is bad when its x value is 2. -/
def badRowFix (r : DFRow) : Bool :=
  if r.get colX = Value.nat 2 then true else false

def realRowFix (r : DFRow) : DFRow :=
  [(colX, r.get colX), (colPred, Value.nat 7)]

/-- Fixture predictor obeying the failure model of the spec: a batch with a
bad row fails with a non-ModelError ClientError, any other batch succeeds
with one result row per input row. -/
def testPredict (df : DF) : Except ClientErr DF :=
  if df.rows.any badRowFix then .error ⟨"DataError"⟩
  else .ok ⟨[colX, colPred], df.rows.map realRowFix⟩

def df4 : DF := ⟨[colX], [mkRow 0, mkRow 1, mkRow 2, mkRow 3]⟩

def df2bad0 : DF := ⟨[colX], [mkRow 2, mkRow 1]⟩

def df1bad : DF := ⟨[colX], [mkRow 2]⟩

def df1good : DF := ⟨[colX], [mkRow 1]⟩

def connME : DF → Except ClientErr DF := fun _ => .error ⟨"ModelError"⟩

def s3Meta : List (List Char × Nat) :=
  [(String.toList ("a/abalone_data/f1.csv"), 5),
   (String.toList ("b/other/f2.csv"), 7),
   (String.toList ("xabalone_data/f3.csv"), 11)]

def s3St : BrokerState (List (List Char × Nat)) :=
  ⟨fun c => if c = .DATA_SOURCES_S3 then some s3Meta else none, fun _ => none, []⟩

def s3ConnFail : ServiceCategory → Except Unit (List (List Char × Nat)) :=
  fun _ => .error ()

/-- State right after a stale-path get_metadata at time 0 on stModels42
launched a background refresh (connector can only fail). -/
def c2LaunchState : BrokerState Nat :=
  (get_metadata connFailU stModels42 .MODELS false 0).state

/-- State after the launched background refresh ran at time 1 and its
Connector call raised. -/
def c2AfterFail : BrokerState Nat :=
  run_refresh_thread connFailU c2LaunchState .MODELS 1

/-! Path-characterization lemmas for the broker, shared by the claim
theorems below. -/

theorem refresh_aws_data_error {Snap E : Type}
    {conn : ServiceCategory → Except E Snap} {c : ServiceCategory} {e : E}
    (st : BrokerState Snap) (now : Nat) (he : conn c = .error e) :
    refresh_aws_data conn st c now = .error e := by
  simp [refresh_aws_data, he]

theorem refresh_aws_data_ok {Snap E : Type}
    {conn : ServiceCategory → Except E Snap} {c : ServiceCategory} {s : Snap}
    (st : BrokerState Snap) (now : Nat) (hs : conn c = .ok s) :
    refresh_aws_data conn st c now =
      .ok { st with
            metaCache := fun x => if x = c then some s else st.metaCache x,
            freshExpiry := fun x =>
              if x = c then some (now + freshExpireSeconds) else st.freshExpiry x } := by
  simp [refresh_aws_data, hs]

theorem get_metadata_block_error {Snap E : Type}
    {conn : ServiceCategory → Except E Snap} {c : ServiceCategory} {e : E}
    {st : BrokerState Snap} {ff : Bool} {now : Nat}
    (hb : ((st.metaCache c).isNone || ff) = true) (he : conn c = .error e) :
    get_metadata conn st c ff now = ⟨.error e, st, true, false⟩ := by
  simp [get_metadata, hb, refresh_aws_data_error st now he]

theorem get_metadata_block_ok {Snap E : Type}
    {conn : ServiceCategory → Except E Snap} {c : ServiceCategory} {s : Snap}
    {st : BrokerState Snap} {ff : Bool} {now : Nat}
    (hb : ((st.metaCache c).isNone || ff) = true) (hs : conn c = .ok s) :
    get_metadata conn st c ff now =
      ⟨.ok (some s),
       { st with
         metaCache := fun x => if x = c then some s else st.metaCache x,
         freshExpiry := fun x =>
           if x = c then some (now + freshExpireSeconds) else st.freshExpiry x },
       true, false⟩ := by
  simp [get_metadata, hb, refresh_aws_data_ok st now hs]

theorem get_metadata_stale {Snap E : Type}
    {conn : ServiceCategory → Except E Snap} {c : ServiceCategory} {s : Snap}
    {st : BrokerState Snap} {now : Nat}
    (hm : st.metaCache c = some s) (hf : freshGet st c now = none) :
    get_metadata conn st c false now =
      ⟨.ok (some s),
       { st with
         freshExpiry := fun x =>
           if x = c then some (now + freshExpireSeconds) else st.freshExpiry x,
         openThreads := st.openThreads ++ [c] },
       false, true⟩ := by
  simp [get_metadata, hm, hf]

theorem get_metadata_fresh {Snap E : Type}
    {conn : ServiceCategory → Except E Snap} {c : ServiceCategory} {s : Snap}
    {st : BrokerState Snap} {now : Nat}
    (hm : st.metaCache c = some s) (hf : (freshGet st c now).isNone = false) :
    get_metadata conn st c false now = ⟨.ok (some s), st, false, false⟩ := by
  simp [get_metadata, hm, hf]

theorem run_refresh_thread_error {Snap E : Type}
    {conn : ServiceCategory → Except E Snap} {c : ServiceCategory} {e : E}
    (st : BrokerState Snap) (now : Nat) (he : conn c = .error e) :
    run_refresh_thread conn st c now = st := by
  simp [run_refresh_thread, refresh_aws_data_error st now he]

theorem run_refresh_thread_ok {Snap E : Type}
    {conn : ServiceCategory → Except E Snap} {c : ServiceCategory} {s : Snap}
    (st : BrokerState Snap) (now : Nat) (hs : conn c = .ok s) :
    run_refresh_thread conn st c now =
      { st with
        metaCache := fun x => if x = c then some s else st.metaCache x,
        freshExpiry := fun x =>
          if x = c then some (now + freshExpireSeconds) else st.freshExpiry x } := by
  simp [run_refresh_thread, refresh_aws_data_ok st now hs]

theorem get_metadata_preserves_some {Snap E : Type}
    (conn : ServiceCategory → Except E Snap) (st : BrokerState Snap)
    (c x : ServiceCategory) (ff : Bool) (now : Nat) (s : Snap)
    (hx : st.metaCache x = some s) :
    ∃ s2, (get_metadata conn st c ff now).state.metaCache x = some s2 := by
  by_cases hb : ((st.metaCache c).isNone || ff) = true
  · cases hc : conn c with
    | error e => rw [get_metadata_block_error hb hc]; exact ⟨s, hx⟩
    | ok snap =>
      rw [get_metadata_block_ok hb hc]
      by_cases hxc : x = c
      · exact ⟨snap, by simp [hxc]⟩
      · exact ⟨s, by simp [hxc, hx]⟩
  · simp only [Bool.or_eq_true, not_or, Bool.not_eq_true] at hb
    obtain ⟨hn, hff⟩ := hb
    subst hff
    rcases hmc : st.metaCache c with _ | s0
    · rw [hmc] at hn; simp at hn
    · by_cases hfg : freshGet st c now = none
      · rw [get_metadata_stale hmc hfg]; exact ⟨s, hx⟩
      · have hfg2 : (freshGet st c now).isNone = false := by
          cases hI : (freshGet st c now).isNone
          · rfl
          · exact absurd (Option.isNone_iff_eq_none.mp hI) hfg
        rw [get_metadata_fresh hmc hfg2]; exact ⟨s, hx⟩

theorem run_refresh_thread_preserves_some {Snap E : Type}
    (conn : ServiceCategory → Except E Snap) (st : BrokerState Snap)
    (c x : ServiceCategory) (now : Nat) (s : Snap)
    (hx : st.metaCache x = some s) :
    ∃ s2, (run_refresh_thread conn st c now).metaCache x = some s2 := by
  cases hc : conn c with
  | error e => rw [run_refresh_thread_error st now hc]; exact ⟨s, hx⟩
  | ok snap =>
    rw [run_refresh_thread_ok st now hc]
    by_cases hxc : x = c
    · exact ⟨snap, by simp [hxc]⟩
    · exact ⟨s, by simp [hxc, hx]⟩

/-- C1: the claim states the freshness flag is set only immediately after a
successful refresh and only by the refreshing thread.  This is false: the
stale path of get_metadata sets the flag itself, before launching the
background refresh thread and hence before any refresh has succeeded.
Here the connector can only fail, so no refresh ever succeeds, the call
performs no synchronous refresh, the launched thread fails leaving the
state unchanged — and yet the flag is set with expiry 10. -/
theorem C1_counterexample :
    stModels42.freshExpiry .MODELS = none ∧
    connFailU .MODELS = .error () ∧
    (get_metadata connFailU stModels42 .MODELS false 0).syncRefresh = false ∧
    (get_metadata connFailU stModels42 .MODELS false 0).launched = true ∧
    (get_metadata connFailU stModels42 .MODELS false 0).state.freshExpiry .MODELS = some 10 ∧
    run_refresh_thread connFailU (get_metadata connFailU stModels42 .MODELS false 0).state .MODELS 1 =
      (get_metadata connFailU stModels42 .MODELS false 0).state :=
  ⟨rfl, rfl, rfl, rfl, rfl, rfl⟩

/-- C1 (amended): the freshness flag for a Category is set on exactly two
code paths — by refresh_aws_data immediately after a successful Connector
call (a failed refresh never sets it), and by the stale path of
get_metadata, which sets the flag itself immediately before launching the
background refresh thread; no other code path sets it. -/
theorem C1_flag_set_sites {Snap E : Type}
    (conn : ServiceCategory → Except E Snap) (st : BrokerState Snap)
    (c x : ServiceCategory) (ff : Bool) (now : Nat) :
    (∀ e : E, conn c = .error e → refresh_aws_data conn st c now = .error e) ∧
    (∀ s : Snap, conn c = .ok s →
       ∃ st1, refresh_aws_data conn st c now = .ok st1 ∧
         st1.freshExpiry c = some (now + freshExpireSeconds)) ∧
    ((get_metadata conn st c ff now).state.freshExpiry x ≠ st.freshExpiry x →
       ((get_metadata conn st c ff now).syncRefresh = true ∧ ∃ s, conn c = .ok s) ∨
       (get_metadata conn st c ff now).launched = true) ∧
    ((run_refresh_thread conn st c now).freshExpiry x ≠ st.freshExpiry x →
       ∃ s, conn c = .ok s) := by
  refine ⟨fun e he => refresh_aws_data_error st now he, ?_, ?_, ?_⟩
  · intro s hs
    exact ⟨_, refresh_aws_data_ok st now hs, by simp⟩
  · intro hne
    by_cases hb : ((st.metaCache c).isNone || ff) = true
    · cases hc : conn c with
      | error e => rw [get_metadata_block_error hb hc] at hne; exact absurd rfl hne
      | ok snap => rw [get_metadata_block_ok hb hc]; exact .inl ⟨rfl, snap, rfl⟩
    · simp only [Bool.or_eq_true, not_or, Bool.not_eq_true] at hb
      obtain ⟨hn, hff⟩ := hb
      subst hff
      rcases hmc : st.metaCache c with _ | s0
      · rw [hmc] at hn; simp at hn
      · by_cases hfg : freshGet st c now = none
        · rw [get_metadata_stale hmc hfg]; exact .inr rfl
        · have hfg2 : (freshGet st c now).isNone = false := by
            cases hI : (freshGet st c now).isNone
            · rfl
            · exact absurd (Option.isNone_iff_eq_none.mp hI) hfg
          rw [get_metadata_fresh hmc hfg2] at hne
          exact absurd rfl hne
  · intro hne
    cases hc : conn c with
    | error e => rw [run_refresh_thread_error st now hc] at hne; exact absurd rfl hne
    | ok snap => exact ⟨snap, rfl⟩

/-- Witness for C1_flag_set_sites: at the concrete stale-path input the
flag does change and the launch disjunct holds. -/
theorem C1_flag_set_sites_witness :
    (get_metadata connFailU stModels42 .MODELS false 0).state.freshExpiry .MODELS ≠
      stModels42.freshExpiry .MODELS ∧
    (((get_metadata connFailU stModels42 .MODELS false 0).syncRefresh = true ∧
        ∃ s, connFailU .MODELS = .ok s) ∨
      (get_metadata connFailU stModels42 .MODELS false 0).launched = true) :=
  ⟨by decide,
   (C1_flag_set_sites connFailU stModels42 .MODELS .MODELS false 0).2.2.1 (by decide)⟩

/-- C2: the claim states that after any failed refresh the next
get_metadata call observes the Category as stale and retries.  This is
false for a failed background refresh: the launching call already set the
freshness flag, so the next call (here at time 2, within the 10 second
TTL) takes the fresh path and does not retry, synchronously or
asynchronously. -/
theorem C2_counterexample :
    connFailU .MODELS = .error () ∧
    (get_metadata connFailU stModels42 .MODELS false 0).launched = true ∧
    c2AfterFail.metaCache .MODELS = some 42 ∧
    (get_metadata connFailU c2AfterFail .MODELS false 2).launched = false ∧
    (get_metadata connFailU c2AfterFail .MODELS false 2).syncRefresh = false ∧
    (get_metadata connFailU c2AfterFail .MODELS false 2).result = .ok (some 42) :=
  ⟨rfl, rfl, rfl, rfl, rfl, rfl⟩

/-- C2 (amended): a refresh whose Connector call raises leaves the stored
Snapshot and the freshness flag unchanged and the previous Snapshot
remains the one served.  After a failed synchronous refresh the exception
propagates with the state untouched, so the next call retries
(synchronously when no Snapshot exists).  After a failed background
refresh the launching call had already set the freshness flag, so the
stale Snapshot is served without a retry until that flag expires, and the
first call at or after launch time + 10 seconds observes the Category as
stale again and retries asynchronously. -/
theorem C2_refresh_failure {Snap E : Type}
    (conn connB connC : ServiceCategory → Except E Snap)
    (st : BrokerState Snap) (c : ServiceCategory) (s : Snap) (e eb : E)
    (now t1 t2 : Nat) :
    (conn c = .error e → refresh_aws_data conn st c now = .error e) ∧
    (conn c = .error e → run_refresh_thread conn st c now = st) ∧
    (st.metaCache c = none → conn c = .error e →
       get_metadata conn st c false now = ⟨.error e, st, true, false⟩) ∧
    (st.metaCache c = some s → freshGet st c now = none →
       (get_metadata conn st c false now).launched = true ∧
       (get_metadata conn st c false now).result = .ok (some s) ∧
       (get_metadata conn st c false now).state.freshExpiry c =
         some (now + freshExpireSeconds) ∧
       (get_metadata conn st c false now).state.metaCache c = some s) ∧
    (st.metaCache c = some s → freshGet st c now = none → connB c = .error eb →
       now + freshExpireSeconds ≤ t2 →
       (get_metadata connC
          (run_refresh_thread connB (get_metadata conn st c false now).state c t1)
          c false t2).launched = true ∧
       (get_metadata connC
          (run_refresh_thread connB (get_metadata conn st c false now).state c t1)
          c false t2).result = .ok (some s)) := by
  refine ⟨fun he => refresh_aws_data_error st now he,
          fun he => run_refresh_thread_error st now he, ?_, ?_, ?_⟩
  · intro hm he
    have hb : ((st.metaCache c).isNone || false) = true := by simp [hm]
    exact get_metadata_block_error hb he
  · intro hm hf
    rw [get_metadata_stale hm hf]
    exact ⟨rfl, rfl, by simp, hm⟩
  · intro hm hf hbe ht
    rw [get_metadata_stale hm hf]
    rw [run_refresh_thread_error _ t1 hbe]
    have hm2 : (({ st with
        freshExpiry := fun x =>
          if x = c then some (now + freshExpireSeconds) else st.freshExpiry x,
        openThreads := st.openThreads ++ [c] } : BrokerState Snap)).metaCache c
        = some s := hm
    have hf2 : freshGet ({ st with
        freshExpiry := fun x =>
          if x = c then some (now + freshExpireSeconds) else st.freshExpiry x,
        openThreads := st.openThreads ++ [c] } : BrokerState Snap) c t2 = none := by
      simp [freshGet]
      omega
    rw [get_metadata_stale hm2 hf2]
    exact ⟨rfl, rfl⟩

/-- Witness for C2_refresh_failure: the stale clause at a concrete input
(snapshot present, flag absent, connector failing). -/
theorem C2_refresh_failure_witness :
    stModels42.metaCache .MODELS = some 42 ∧
    freshGet stModels42 .MODELS 0 = none ∧
    (get_metadata connFailU stModels42 .MODELS false 0).launched = true ∧
    (get_metadata connFailU stModels42 .MODELS false 0).result = .ok (some 42) ∧
    (get_metadata connFailU stModels42 .MODELS false 0).state.freshExpiry .MODELS =
      some (0 + freshExpireSeconds) ∧
    (get_metadata connFailU stModels42 .MODELS false 0).state.metaCache .MODELS = some 42 := by
  have h := (C2_refresh_failure connFailU connFailU connFailU stModels42 .MODELS 42
      () () 0 1 10).2.2.2.1 (by decide) (by decide)
  exact ⟨by decide, by decide, h.1, h.2.1, h.2.2.1, h.2.2.2⟩

/-- C4: after a first successful get_metadata for a Category, every later
call with force_fresh = false returns a non-None Snapshot without a
synchronous Connector invocation: a successful call always leaves a stored
Snapshot, a stored Snapshot survives every later call and every background
refresh, a call on a warm Category takes a non-blocking path and returns
the stored Snapshot, and the blocking path is taken only when no Snapshot
exists yet or force_fresh is true. -/
theorem C4_no_blocking_after_warmup {Snap E : Type}
    (conn conn2 : ServiceCategory → Except E Snap) (st : BrokerState Snap)
    (c c2 : ServiceCategory) (ff ff2 : Bool) (now now2 : Nat) (s : Snap) :
    (∀ v, (get_metadata conn st c ff now).result = .ok v →
       ∃ s2, (get_metadata conn st c ff now).state.metaCache c = some s2) ∧
    (st.metaCache c = some s →
       (∃ s2, (get_metadata conn2 st c2 ff2 now2).state.metaCache c = some s2) ∧
       (∃ s2, (run_refresh_thread conn2 st c2 now2).metaCache c = some s2)) ∧
    (st.metaCache c = some s →
       (get_metadata conn st c false now).syncRefresh = false ∧
       (get_metadata conn st c false now).result = .ok (some s)) ∧
    ((get_metadata conn st c ff now).syncRefresh = true →
       st.metaCache c = none ∨ ff = true) := by
  refine ⟨?_, ?_, ?_, ?_⟩
  · intro v hv
    by_cases hb : ((st.metaCache c).isNone || ff) = true
    · cases hc : conn c with
      | error e => rw [get_metadata_block_error hb hc] at hv; exact absurd hv (by simp)
      | ok snap => rw [get_metadata_block_ok hb hc]; exact ⟨snap, by simp⟩
    · simp only [Bool.or_eq_true, not_or, Bool.not_eq_true] at hb
      obtain ⟨hn, hff⟩ := hb
      subst hff
      rcases hmc : st.metaCache c with _ | s0
      · rw [hmc] at hn; simp at hn
      · by_cases hfg : freshGet st c now = none
        · rw [get_metadata_stale hmc hfg]; exact ⟨s0, hmc⟩
        · have hfg2 : (freshGet st c now).isNone = false := by
            cases hI : (freshGet st c now).isNone
            · rfl
            · exact absurd (Option.isNone_iff_eq_none.mp hI) hfg
          rw [get_metadata_fresh hmc hfg2]; exact ⟨s0, hmc⟩
  · intro hm
    exact ⟨get_metadata_preserves_some conn2 st c2 c ff2 now2 s hm,
           run_refresh_thread_preserves_some conn2 st c2 c now2 s hm⟩
  · intro hm
    by_cases hfg : freshGet st c now = none
    · rw [get_metadata_stale hm hfg]; exact ⟨rfl, rfl⟩
    · have hfg2 : (freshGet st c now).isNone = false := by
        cases hI : (freshGet st c now).isNone
        · rfl
        · exact absurd (Option.isNone_iff_eq_none.mp hI) hfg
      rw [get_metadata_fresh hm hfg2]; exact ⟨rfl, rfl⟩
  · intro hsy
    by_cases hb : ((st.metaCache c).isNone || ff) = true
    · simp only [Bool.or_eq_true] at hb
      rcases hb with hb | hb
      · exact .inl (Option.isNone_iff_eq_none.mp hb)
      · exact .inr hb
    · simp only [Bool.or_eq_true, not_or, Bool.not_eq_true] at hb
      obtain ⟨hn, hff⟩ := hb
      subst hff
      rcases hmc : st.metaCache c with _ | s0
      · rw [hmc] at hn; simp at hn
      · by_cases hfg : freshGet st c now = none
        · rw [get_metadata_stale hmc hfg] at hsy; exact absurd hsy (by simp)
        · have hfg2 : (freshGet st c now).isNone = false := by
            cases hI : (freshGet st c now).isNone
            · rfl
            · exact absurd (Option.isNone_iff_eq_none.mp hI) hfg
          rw [get_metadata_fresh hmc hfg2] at hsy; exact absurd hsy (by simp)

/-- Witness for C4_no_blocking_after_warmup: warm clause at a concrete
input. -/
theorem C4_no_blocking_after_warmup_witness :
    stModels42.metaCache .MODELS = some 42 ∧
    (get_metadata connFailU stModels42 .MODELS false 3).syncRefresh = false ∧
    (get_metadata connFailU stModels42 .MODELS false 3).result = .ok (some 42) := by
  have h := (C4_no_blocking_after_warmup connFailU connFailU stModels42 .MODELS .MODELS
      false false 3 3 42).2.2.1 (by decide)
  exact ⟨by decide, h.1, h.2⟩

/-- C5: get_metadata with force_fresh = true always takes the blocking
path and invokes the Connector synchronously; on success it returns the
newly refreshed Snapshot (now stored with a fresh flag), on failure the
exception propagates and the state is untouched. -/
theorem C5_force_fresh_blocks {Snap E : Type}
    (conn : ServiceCategory → Except E Snap) (st : BrokerState Snap)
    (c : ServiceCategory) (now : Nat) :
    (get_metadata conn st c true now).syncRefresh = true ∧
    (∀ s, conn c = .ok s →
       (get_metadata conn st c true now).result = .ok (some s) ∧
       (get_metadata conn st c true now).state.metaCache c = some s ∧
       (get_metadata conn st c true now).state.freshExpiry c =
         some (now + freshExpireSeconds)) ∧
    (∀ e, conn c = .error e →
       (get_metadata conn st c true now).result = .error e ∧
       (get_metadata conn st c true now).state = st) := by
  have hb : ((st.metaCache c).isNone || true) = true := by simp
  refine ⟨?_, ?_, ?_⟩
  · cases hc : conn c with
    | error e => rw [get_metadata_block_error hb hc]
    | ok snap => rw [get_metadata_block_ok hb hc]
  · intro s hs
    rw [get_metadata_block_ok hb hs]
    exact ⟨rfl, by simp, by simp⟩
  · intro e he
    rw [get_metadata_block_error hb he]
    exact ⟨rfl, rfl⟩

/-- Witness for C5_force_fresh_blocks: success clause at a concrete
input. -/
theorem C5_force_fresh_blocks_witness :
    connOk7 .MODELS = .ok 7 ∧
    (get_metadata connOk7 stModels42 .MODELS true 0).syncRefresh = true ∧
    (get_metadata connOk7 stModels42 .MODELS true 0).result = .ok (some 7) := by
  have h := C5_force_fresh_blocks connOk7 stModels42 .MODELS 0
  exact ⟨rfl, h.1, (h.2.1 7 rfl).1⟩

theorem get_metadata_warm {Snap E : Type}
    (conn : ServiceCategory → Except E Snap) (now : Nat) {st : BrokerState Snap}
    {c : ServiceCategory} {s : Snap}
    (hm : st.metaCache c = some s) :
    (get_metadata conn st c false now).result = .ok (some s) ∧
    (get_metadata conn st c false now).state.metaCache = st.metaCache ∧
    (get_metadata conn st c false now).syncRefresh = false := by
  by_cases hfg : freshGet st c now = none
  · rw [get_metadata_stale hm hfg]; exact ⟨rfl, rfl, rfl⟩
  · have hfg2 : (freshGet st c now).isNone = false := by
      cases hI : (freshGet st c now).isNone
      · rfl
      · exact absurd (Option.isNone_iff_eq_none.mp hI) hfg
    rw [get_metadata_fresh hm hfg2]; exact ⟨rfl, rfl, rfl⟩

theorem get_all_meta_loop_warm {Snap E : Type}
    (conn : ServiceCategory → Except E Snap) (now : Nat) :
    ∀ (l : List ServiceCategory) (st : BrokerState Snap),
      (∀ c, ∃ s, st.metaCache c = some s) →
      (get_all_meta_loop conn false now st l).result =
        .ok (l.map fun c => (c, st.metaCache c)) ∧
      (get_all_meta_loop conn false now st l).state.metaCache = st.metaCache := by
  intro l
  induction l with
  | nil => intro st _; exact ⟨rfl, rfl⟩
  | cons c rest ih =>
    intro st h
    obtain ⟨s, hm⟩ := h c
    obtain ⟨hres, hstate, _⟩ := get_metadata_warm conn now hm
    have h2 : ∀ x, ∃ s2, (get_metadata conn st c false now).state.metaCache x = some s2 := by
      intro x
      rw [hstate]
      exact h x
    obtain ⟨ihres, ihstate⟩ := ih (get_metadata conn st c false now).state h2
    constructor
    · simp only [get_all_meta_loop, hres, ihres, hstate, hm, List.map_cons]
    · simp only [get_all_meta_loop, hres, ihres]
      rw [ihstate, hstate]

theorem get_all_meta_loop_preserves_some {Snap E : Type}
    (conn : ServiceCategory → Except E Snap) (ff : Bool) (now : Nat) :
    ∀ (l : List ServiceCategory) (st : BrokerState Snap) (x : ServiceCategory)
      (s : Snap), st.metaCache x = some s →
      ∃ s2, (get_all_meta_loop conn ff now st l).state.metaCache x = some s2 := by
  intro l
  induction l with
  | nil => intro st x s hx; exact ⟨s, hx⟩
  | cons c rest ih =>
    intro st x s hx
    obtain ⟨s1, h1⟩ := get_metadata_preserves_some conn st c x ff now s hx
    rcases hres : (get_metadata conn st c ff now).result with e | v
    · simp only [get_all_meta_loop, hres]
      exact ⟨s1, h1⟩
    · obtain ⟨s2, h2⟩ := ih (get_metadata conn st c ff now).state x s1 h1
      rcases hres2 : (get_all_meta_loop conn ff now
          (get_metadata conn st c ff now).state rest).result with e2 | l2
      · simp only [get_all_meta_loop, hres, hres2]
        exact ⟨s2, h2⟩
      · simp only [get_all_meta_loop, hres, hres2]
        exact ⟨s2, h2⟩

/-- C6: the claim states that when one Category's Connector raises during
get_all_metadata the other Categories' Snapshots are still returned.
False: get_all_metadata is a dict comprehension over get_metadata, and a
synchronous Connector failure (here: empty cache, so the very first
category takes the blocking path) propagates out of the comprehension, so
nothing at all is returned — even though the Connectors of all other
categories would have succeeded. -/
theorem C6_counterexample :
    connIncomingFails .INCOMING_DATA_S3 = .error () ∧
    connIncomingFails .MODELS = .ok 1 ∧
    (get_all_metadata connIncomingFails emptyBrokerSt false 0).result = .error () :=
  ⟨rfl, rfl, rfl⟩

/-- C6 (amended): a Connector failure during get_all_metadata never
destroys any stored Snapshot (clause 2), and when every Category already
holds a Snapshot, the force_fresh = false fan-out assembles and returns
every Category's stored Snapshot for any Connector behavior, because every
Connector call then happens in a background thread (clauses 1 and 3); but
a synchronous Connector failure (a Category with no Snapshot yet, or
force_fresh = true) propagates and aborts the whole call, returning no
mapping. -/
theorem C6_failure_isolation {Snap E : Type}
    (conn : ServiceCategory → Except E Snap) (st : BrokerState Snap)
    (ff : Bool) (now : Nat) :
    ((∀ c, ∃ s, st.metaCache c = some s) →
       (get_all_metadata conn st false now).result =
         .ok (allCategories.map fun c => (c, st.metaCache c))) ∧
    (∀ x s, st.metaCache x = some s →
       ∃ s2, (get_all_metadata conn st ff now).state.metaCache x = some s2) ∧
    ((∀ c, ∃ s, st.metaCache c = some s) →
       (get_all_metadata conn st false now).state.metaCache = st.metaCache) := by
  refine ⟨?_, ?_, ?_⟩
  · intro h
    exact (get_all_meta_loop_warm conn now allCategories st h).1
  · intro x s hx
    exact get_all_meta_loop_preserves_some conn ff now allCategories st x s hx
  · intro h
    exact (get_all_meta_loop_warm conn now allCategories st h).2

/-- Witness for C6_failure_isolation: a fully warm broker returns every
category's snapshot even though every Connector call would raise. -/
theorem C6_failure_isolation_witness :
    (∀ c, ∃ s, warmBrokerSt.metaCache c = some s) ∧
    (get_all_metadata connFailU warmBrokerSt false 0).result =
      .ok (allCategories.map fun c => (c, warmBrokerSt.metaCache c)) := by
  have h : ∀ c, ∃ s, warmBrokerSt.metaCache c = some s := fun c => ⟨5, rfl⟩
  exact ⟨h, (C6_failure_isolation connFailU warmBrokerSt false 0).1 h⟩

/-- C8: after a get_metadata call takes the stale path at time now (flag
set to expire at now + 10, background thread launched), every
force_fresh = false call before that expiry takes the fresh path: no new
thread, no synchronous refresh, the cached Snapshot returned and the state
untouched — both while the launched refresh has not run yet and after it
ran and failed.  Hence at most one background refresh thread is launched
per Category per TTL window. -/
theorem C8_one_thread_per_ttl {Snap E : Type}
    (conn connB connC : ServiceCategory → Except E Snap)
    (st : BrokerState Snap) (c : ServiceCategory) (s : Snap) (eb : E)
    (now t1 t2 : Nat)
    (hm : st.metaCache c = some s) (hf : freshGet st c now = none) :
    (get_metadata conn st c false now).launched = true ∧
    (get_metadata conn st c false now).state.freshExpiry c =
      some (now + freshExpireSeconds) ∧
    (t2 < now + freshExpireSeconds →
       (get_metadata connC (get_metadata conn st c false now).state c false t2).launched = false ∧
       (get_metadata connC (get_metadata conn st c false now).state c false t2).syncRefresh = false ∧
       (get_metadata connC (get_metadata conn st c false now).state c false t2).result = .ok (some s) ∧
       (get_metadata connC (get_metadata conn st c false now).state c false t2).state =
         (get_metadata conn st c false now).state) ∧
    (connB c = .error eb → t2 < now + freshExpireSeconds →
       (get_metadata connC
          (run_refresh_thread connB (get_metadata conn st c false now).state c t1)
          c false t2).launched = false ∧
       (get_metadata connC
          (run_refresh_thread connB (get_metadata conn st c false now).state c t1)
          c false t2).syncRefresh = false ∧
       (get_metadata connC
          (run_refresh_thread connB (get_metadata conn st c false now).state c t1)
          c false t2).result = .ok (some s)) := by
  rw [get_metadata_stale hm hf]
  refine ⟨rfl, by simp, ?_, ?_⟩
  · intro ht
    have hm2 : (({ st with
        freshExpiry := fun x =>
          if x = c then some (now + freshExpireSeconds) else st.freshExpiry x,
        openThreads := st.openThreads ++ [c] } : BrokerState Snap)).metaCache c
        = some s := hm
    have hf2 : (freshGet ({ st with
        freshExpiry := fun x =>
          if x = c then some (now + freshExpireSeconds) else st.freshExpiry x,
        openThreads := st.openThreads ++ [c] } : BrokerState Snap) c t2).isNone
        = false := by
      simp [freshGet, ht]
    rw [get_metadata_fresh hm2 hf2]
    exact ⟨rfl, rfl, rfl, rfl⟩
  · intro hbe ht
    rw [run_refresh_thread_error _ t1 hbe]
    have hm2 : (({ st with
        freshExpiry := fun x =>
          if x = c then some (now + freshExpireSeconds) else st.freshExpiry x,
        openThreads := st.openThreads ++ [c] } : BrokerState Snap)).metaCache c
        = some s := hm
    have hf2 : (freshGet ({ st with
        freshExpiry := fun x =>
          if x = c then some (now + freshExpireSeconds) else st.freshExpiry x,
        openThreads := st.openThreads ++ [c] } : BrokerState Snap) c t2).isNone
        = false := by
      simp [freshGet, ht]
    rw [get_metadata_fresh hm2 hf2]
    exact ⟨rfl, rfl, rfl⟩

/-- Witness for C8_one_thread_per_ttl at concrete inputs (launch at time 0,
failed thread at time 1, next call at time 5). -/
theorem C8_one_thread_per_ttl_witness :
    stModels42.metaCache .MODELS = some 42 ∧
    freshGet stModels42 .MODELS 0 = none ∧
    connFailU .MODELS = .error () ∧
    (5 < 0 + freshExpireSeconds) ∧
    (get_metadata connFailU
       (run_refresh_thread connFailU (get_metadata connFailU stModels42 .MODELS false 0).state .MODELS 1)
       .MODELS false 5).launched = false := by
  have h := (C8_one_thread_per_ttl connFailU connFailU connFailU stModels42 .MODELS 42
      () 0 1 5 (by decide) (by decide)).2.2.2 rfl (by decide)
  exact ⟨by decide, by decide, rfl, by decide, h.1⟩

theorem chStarts_iff (pat : List Char) :
    ∀ s : List Char, chStarts pat s = true ↔ ∃ t, s = pat ++ t := by
  induction pat with
  | nil =>
    intro s
    simp [chStarts]
  | cons a as ih =>
    intro s
    cases s with
    | nil => simp [chStarts]
    | cons b bs =>
      simp only [chStarts, Bool.and_eq_true, decide_eq_true_eq, ih,
        List.cons_append, List.cons.injEq]
      constructor
      · rintro ⟨hab, t, ht⟩
        exact ⟨t, hab.symm, ht⟩
      · rintro ⟨t, hab, ht⟩
        exact ⟨hab.symm, t, ht⟩

theorem chContains_iff (hay pat : List Char) :
    chContains hay pat = true ↔ ∃ l r, hay = l ++ pat ++ r := by
  unfold chContains
  rw [List.any_eq_true]
  constructor
  · rintro ⟨i, _, hst⟩
    obtain ⟨t, ht⟩ := (chStarts_iff pat (hay.drop i)).mp hst
    refine ⟨hay.take i, t, ?_⟩
    conv_lhs => rw [← List.take_append_drop i hay]
    rw [ht, List.append_assoc]
  · rintro ⟨l, r, hlr⟩
    refine ⟨l.length, ?_, ?_⟩
    · rw [List.mem_range, hlr]
      simp only [List.append_assoc, List.length_append]
      omega
    · rw [(chStarts_iff pat (hay.drop l.length))]
      refine ⟨r, ?_⟩
      rw [hlr, List.append_assoc, List.drop_left]

theorem foldl_if_sum {α : Type} (p : α → Bool) (f : α → Nat) :
    ∀ (l : List α) (a : Nat),
      l.foldl (fun acc kv => if p kv then acc + f kv else acc) a =
        a + ((l.filter p).map f).sum := by
  intro l
  induction l with
  | nil => intro a; simp
  | cons x xs ih =>
    intro a
    by_cases hp : p x = true
    · simp only [List.foldl_cons, hp, if_true, ih, List.filter_cons, List.map_cons,
        List.sum_cons]
      omega
    · have hp2 : p x = false := by
        cases hI : p x
        · rfl
        · exact absurd hI hp
      simp only [List.foldl_cons, hp2, if_neg, ih, List.filter_cons]
      simp [hp2]

theorem s3SizeLoop_eq_filter_sum (meta : List (List Char × Nat)) (pfx : List Char) :
    s3SizeLoop meta pfx =
      ((meta.filter fun kv => chContains kv.1 (normPfx pfx)).map Prod.snd).sum := by
  unfold s3SizeLoop
  rw [foldl_if_sum]
  omega

theorem chContains_nil_pat (hay : List Char) : chContains hay [] = true := by
  unfold chContains
  rw [List.any_eq_true]
  exact ⟨0, by simp [List.mem_range], by simp [chStarts]⟩

/-- C10: with a Snapshot stored for the Category, get_s3_object_sizes
returns the sum of ContentLength over exactly those objects whose key
contains the slash-normalized prefix as a substring anywhere in the key
(any decomposition key = l ++ normalized ++ r, so not only keys that start
with the prefix), and with the empty prefix it returns the sum over every
object of the Category. -/
theorem C10_s3_object_sizes {E : Type}
    (conn : ServiceCategory → Except E (List (List Char × Nat)))
    (st : BrokerState (List (List Char × Nat))) (c : ServiceCategory)
    (pfx : List Char) (now : Nat) (meta : List (List Char × Nat))
    (hm : st.metaCache c = some meta) :
    (get_s3_object_sizes conn st c pfx now).1 =
      .ok (((meta.filter fun kv => chContains kv.1 (normPfx pfx)).map Prod.snd).sum) ∧
    (∀ key : List Char,
       chContains key (normPfx pfx) = true ↔ ∃ l r, key = l ++ normPfx pfx ++ r) ∧
    (get_s3_object_sizes conn st c [] now).1 = .ok ((meta.map Prod.snd).sum) := by
  obtain ⟨hres, _, _⟩ := get_metadata_warm conn now hm
  refine ⟨?_, fun key => chContains_iff key (normPfx pfx), ?_⟩
  · simp only [get_s3_object_sizes, hres, Option.getD_some]
    rw [s3SizeLoop_eq_filter_sum]
  · simp only [get_s3_object_sizes, hres, Option.getD_some]
    rw [s3SizeLoop_eq_filter_sum]
    have hall : (meta.filter fun kv => chContains kv.1 (normPfx [])) = meta := by
      apply List.filter_eq_self.mpr
      intro kv _
      have : normPfx [] = [] := by simp [normPfx]
      rw [this]
      exact chContains_nil_pat kv.1
    rw [hall]

/-- Witness for C10_s3_object_sizes at the concrete fixture metadata and
prefix. -/
theorem C10_s3_object_sizes_witness :
    s3St.metaCache .DATA_SOURCES_S3 = some s3Meta ∧
    (get_s3_object_sizes s3ConnFail s3St .DATA_SOURCES_S3
       (String.toList ("abalone_data")) 0).1 =
      .ok (((s3Meta.filter fun kv =>
        chContains kv.1 (normPfx (String.toList ("abalone_data")))).map Prod.snd).sum) := by
  exact ⟨rfl, (C10_s3_object_sizes s3ConnFail s3St .DATA_SOURCES_S3
    (String.toList ("abalone_data")) 0 s3Meta rfl).1⟩

/-- C7: a ClientError with code ModelError (the transport/service-level
class in the source) is re-raised immediately with a single submitted
batch and no bisection, whatever the batch size; any other ClientError (a
per-row data error) on a batch of size other than one triggers the
recursive midpoint bisection, whose half-results are concatenated in
order; and a data error on a single row with no previously captured
successful column shape is re-raised to the caller. -/
theorem C7_error_paths :
    (∀ (predict : DF → Except ClientErr DF) (cols : Option (List String))
       (df : DF) (e : ClientErr) (fuel : Nat),
       predict df = .error e → e.code = "ModelError" →
       endpoint_error_handling predict (fuel + 1) cols df =
         some ⟨.error e, cols, [df]⟩) ∧
    (∀ (predict : DF → Except ClientErr DF) (cols : Option (List String))
       (df : DF) (e : ClientErr) (fuel : Nat),
       predict df = .error e → e.code ≠ "ModelError" → df.rows.length ≠ 1 →
       ∀ r1 df1 r2 df2,
         endpoint_error_handling predict fuel cols
           (df.takeRows (df.rows.length / 2)) = some r1 →
         r1.out = .ok df1 →
         endpoint_error_handling predict fuel r1.cols
           (df.dropRows (df.rows.length / 2)) = some r2 →
         r2.out = .ok df2 →
         endpoint_error_handling predict (fuel + 1) cols df =
           some ⟨.ok (DF.concat df1 df2), r2.cols, df :: r1.calls ++ r2.calls⟩) ∧
    (∀ (predict : DF → Except ClientErr DF) (df : DF) (e : ClientErr) (fuel : Nat),
       predict df = .error e → e.code ≠ "ModelError" → df.rows.length = 1 →
       endpoint_error_handling predict (fuel + 1) none df =
         some ⟨.error e, none, [df]⟩) := by
  refine ⟨?_, ?_, ?_⟩
  · intro predict cols df e fuel hp he
    simp only [endpoint_error_handling, hp, he, if_true]
  · intro predict cols df e fuel hp he hn r1 df1 r2 df2 h1 hout1 h2 hout2
    obtain ⟨out1, cols1, calls1⟩ := r1
    obtain ⟨out2, cols2, calls2⟩ := r2
    simp only at hout1 hout2
    subst hout1
    subst hout2
    simp only [endpoint_error_handling, hp, he, if_false, hn, if_neg, h1, h2]
  · intro predict df e fuel hp he h1
    simp only [endpoint_error_handling, hp, he, if_false, h1, if_pos]

/-- Witness for C7_error_paths: the ModelError clause at a concrete 4-row
batch, re-raised with a single submitted batch. -/
theorem C7_error_paths_witness :
    connME df4 = .error ⟨"ModelError"⟩ ∧
    endpoint_error_handling connME 5 none df4 =
      some ⟨.error ⟨"ModelError"⟩, none, [df4]⟩ :=
  ⟨rfl, C7_error_paths.1 connME none df4 ⟨"ModelError"⟩ 4 rfl rfl⟩

theorem DFRow_get_map (v : String → Value) :
    ∀ (l : List String) (c : String), c ∈ l →
      DFRow.get (l.map fun c2 => (c2, v c2)) c = v c := by
  intro l
  induction l with
  | nil => intro c hc; cases hc
  | cons a as ih =>
    intro c hc
    by_cases hac : a = c
    · subst hac
      simp [DFRow.get, List.find?]
    · have hc2 : c ∈ as := by
        cases hc with
        | head => exact absurd rfl hac
        | tail _ h => exact h
      have : DFRow.get (as.map fun c2 => (c2, v c2)) c = v c := ih c hc2
      simpa [DFRow.get, List.find?, hac] using this

theorem mem_error_df_cols (inCols allCols : List String) (c : String)
    (hc : c ∈ inCols ∨ c ∈ allCols) :
    c ∈ allCols ++ inCols.filter (fun x => ¬ allCols.contains x) := by
  by_cases hca : c ∈ allCols
  · exact List.mem_append_left _ hca
  · rcases hc with hc | hc
    · refine List.mem_append_right _ ?_
      rw [List.mem_filter]
      refine ⟨hc, ?_⟩
      simp only [decide_eq_true_eq]
      intro hcontra
      exact hca (List.elem_iff.mp hcontra)
    · exact absurd hc hca

/-- C9: a placeholder failure row (built by error_df for a one-row failing
batch when a known-good shape cs exists) preserves the original input
value of every column present in the input, and fills with NaN exactly the
output-only columns (those in cs but not among the input columns). -/
theorem C9_placeholder_preserves_inputs :
    (∀ (predict : DF → Except ClientErr DF) (cs : List String) (df : DF)
       (e : ClientErr) (fuel : Nat),
       predict df = .error e → e.code ≠ "ModelError" → df.rows.length = 1 →
       endpoint_error_handling predict (fuel + 1) (some cs) df =
         some ⟨.ok (error_df df cs), some cs, [df]⟩) ∧
    (∀ (df : DF) (cs : List String) (r : DFRow), df.rows = [r] →
       ∃ r2, (error_df df cs).rows = [r2] ∧
         (∀ c, c ∈ df.columns → DFRow.get r2 c = DFRow.get r c) ∧
         (∀ c, c ∈ cs → c ∉ df.columns → DFRow.get r2 c = Value.nan)) := by
  constructor
  · intro predict cs df e fuel hp he h1
    simp only [endpoint_error_handling, hp, he, if_false, h1, if_pos]
  · intro df cs r hr
    refine ⟨(cs ++ df.columns.filter (fun x => ¬ cs.contains x)).map
      (fun c => (c, if df.columns.contains c then DFRow.get r c else Value.nan)),
      ?_, ?_, ?_⟩
    · simp [error_df, hr]
    · intro c hc
      rw [DFRow_get_map (fun c => if df.columns.contains c then DFRow.get r c else Value.nan)
        _ c (mem_error_df_cols df.columns cs c (.inl hc))]
      rw [if_pos (List.elem_eq_true_of_mem hc)]
    · intro c hcs hcols
      rw [DFRow_get_map (fun c => if df.columns.contains c then DFRow.get r c else Value.nan)
        _ c (mem_error_df_cols df.columns cs c (.inr hcs))]
      rw [if_neg (fun hcontra => hcols (List.elem_iff.mp hcontra))]

/-- Witness for C9_placeholder_preserves_inputs: placeholder construction
for the concrete one-row failing batch df1bad with known shape. -/
theorem C9_placeholder_preserves_inputs_witness :
    testPredict df1bad = .error ⟨"DataError"⟩ ∧
    endpoint_error_handling testPredict 1 (some [colX, colPred]) df1bad =
      some ⟨.ok (error_df df1bad [colX, colPred]), some [colX, colPred], [df1bad]⟩ :=
  ⟨rfl, C9_placeholder_preserves_inputs.1 testPredict [colX, colPred] df1bad
    ⟨"DataError"⟩ 0 rfl (by decide) rfl⟩

theorem error_df_rows_single (inCols cs : List String) (r : DFRow) :
    (error_df ⟨inCols, [r]⟩ cs).rows = [placeholderRow inCols cs r] := rfl

theorem handle_cols_invariant
    (predict : DF → Except ClientErr DF) (bad : DFRow → Bool)
    (realRow : DFRow → DFRow) (inCols outCols : List String)
    (H1 : ∀ rows : List DFRow, rows.any bad = true →
       ∃ e, predict ⟨inCols, rows⟩ = .error e ∧ e.code ≠ "ModelError")
    (H2 : ∀ rows : List DFRow, rows.any bad = false →
       predict ⟨inCols, rows⟩ = .ok ⟨outCols, rows.map realRow⟩) :
    ∀ (fuel : Nat) (rows : List DFRow), rows.length + 1 ≤ fuel →
      ∃ r, endpoint_error_handling predict fuel (some outCols) ⟨inCols, rows⟩ = some r ∧
        r.cols = some outCols ∧
        ∃ d, r.out = .ok d ∧
          d.rows = rows.map (resultRow bad realRow inCols outCols) := by
  intro fuel
  induction fuel with
  | zero => intro rows h; omega
  | succ fuel ih =>
    intro rows hlen
    cases hany : rows.any bad with
    | false =>
      have hp := H2 rows hany
      refine ⟨⟨.ok ⟨outCols, rows.map realRow⟩, some outCols, [⟨inCols, rows⟩]⟩, ?_, rfl,
        ⟨outCols, rows.map realRow⟩, rfl, ?_⟩
      · simp only [endpoint_error_handling, hp]
      · show rows.map realRow = rows.map (resultRow bad realRow inCols outCols)
        apply List.map_eq_map_iff.mpr
        intro a ha
        have hb : bad a = false := by
          simp only [List.any_eq_false] at hany
          simpa using hany a ha
        simp [resultRow, hb]
    | true =>
      obtain ⟨e, hp, he⟩ := H1 rows hany
      by_cases h1 : rows.length = 1
      · obtain ⟨a, ha⟩ := List.length_eq_one.mp h1
        subst ha
        have hb : bad a = true := by simpa using hany
        refine ⟨⟨.ok (error_df ⟨inCols, [a]⟩ outCols), some outCols, [⟨inCols, [a]⟩]⟩,
          ?_, rfl, error_df ⟨inCols, [a]⟩ outCols, rfl, ?_⟩
        · simp [endpoint_error_handling, hp, he]
        · rw [error_df_rows_single]
          simp [resultRow, hb]
      · have hne : rows ≠ [] := by
          intro hnil
          rw [hnil] at hany
          simp at hany
        have hpos : 0 < rows.length := List.length_pos.mpr hne
        have htake : (rows.take (rows.length / 2)).length = rows.length / 2 := by
          rw [List.length_take]; omega
        have hdrop : (rows.drop (rows.length / 2)).length = rows.length - rows.length / 2 :=
          List.length_drop _ _
        obtain ⟨⟨out1, cols1, calls1⟩, hr1, hcols1, d1, hout1, hrows1⟩ :=
          ih (rows.take (rows.length / 2)) (by rw [htake]; omega)
        simp only at hcols1 hout1
        subst hcols1
        subst hout1
        obtain ⟨⟨out2, cols2, calls2⟩, hr2, hcols2, d2, hout2, hrows2⟩ :=
          ih (rows.drop (rows.length / 2)) (by rw [hdrop]; omega)
        simp only at hcols2 hout2
        subst hcols2
        subst hout2
        refine ⟨⟨.ok (DF.concat d1 d2), some outCols,
          ⟨inCols, rows⟩ :: calls1 ++ calls2⟩, ?_, rfl, DF.concat d1 d2, rfl, ?_⟩
        · simp only [endpoint_error_handling, hp, he, if_false, h1, if_neg,
            DF.takeRows, DF.dropRows, hr1, hr2]
        · show (DF.concat d1 d2).rows = _
          simp only [DF.concat]
          rw [hrows1, hrows2, ← List.map_append, List.take_append_drop]

theorem handle_head_good
    (predict : DF → Except ClientErr DF) (bad : DFRow → Bool)
    (realRow : DFRow → DFRow) (inCols outCols : List String)
    (H1 : ∀ rows : List DFRow, rows.any bad = true →
       ∃ e, predict ⟨inCols, rows⟩ = .error e ∧ e.code ≠ "ModelError")
    (H2 : ∀ rows : List DFRow, rows.any bad = false →
       predict ⟨inCols, rows⟩ = .ok ⟨outCols, rows.map realRow⟩) :
    ∀ (fuel : Nat) (rows : List DFRow), rows.length + 1 ≤ fuel →
      (∀ r0, rows.head? = some r0 → bad r0 = false) →
      ∃ r, endpoint_error_handling predict fuel none ⟨inCols, rows⟩ = some r ∧
        r.cols = some outCols ∧
        ∃ d, r.out = .ok d ∧
          d.rows = rows.map (resultRow bad realRow inCols outCols) := by
  intro fuel
  induction fuel with
  | zero => intro rows h _; omega
  | succ fuel ih =>
    intro rows hlen hhead
    cases hany : rows.any bad with
    | false =>
      have hp := H2 rows hany
      refine ⟨⟨.ok ⟨outCols, rows.map realRow⟩, some outCols, [⟨inCols, rows⟩]⟩, ?_, rfl,
        ⟨outCols, rows.map realRow⟩, rfl, ?_⟩
      · simp only [endpoint_error_handling, hp]
      · show rows.map realRow = rows.map (resultRow bad realRow inCols outCols)
        apply List.map_eq_map_iff.mpr
        intro a ha
        have hb : bad a = false := by
          simp only [List.any_eq_false] at hany
          simpa using hany a ha
        simp [resultRow, hb]
    | true =>
      obtain ⟨e, hp, he⟩ := H1 rows hany
      rcases rows with _ | ⟨a, tl⟩
      · simp at hany
      · have hba : bad a = false := hhead a rfl
        by_cases h1 : (a :: tl).length = 1
        · have htl : tl = [] := by
            cases tl with
            | nil => rfl
            | cons b bs => simp at h1
          subst htl
          rw [List.any_cons, hba] at hany
          simp at hany
        · have hpos : 0 < (a :: tl).length := by simp
          have htake : ((a :: tl).take ((a :: tl).length / 2)).length =
              (a :: tl).length / 2 := by
            rw [List.length_take]
            have : (a :: tl).length / 2 ≤ (a :: tl).length := Nat.div_le_self _ _
            omega
          have hdrop : ((a :: tl).drop ((a :: tl).length / 2)).length =
              (a :: tl).length - (a :: tl).length / 2 := List.length_drop _ _
          have hsp1 : 1 ≤ (a :: tl).length / 2 := by
            have h2 : 2 ≤ (a :: tl).length := by
              have : (a :: tl).length ≠ 1 := h1
              simp only [List.length_cons] at this ⊢
              omega
            omega
          have hheadtake : ∀ r0, ((a :: tl).take ((a :: tl).length / 2)).head? = some r0 →
              bad r0 = false := by
            intro r0 hr0
            rcases hsp : (a :: tl).length / 2 with _ | k
            · omega
            · rw [hsp] at hr0
              simp only [List.take_succ_cons, List.head?_cons] at hr0
              rw [← Option.some_inj.mp hr0]
              exact hba
          obtain ⟨⟨out1, cols1, calls1⟩, hr1, hcols1, d1, hout1, hrows1⟩ :=
            ih ((a :: tl).take ((a :: tl).length / 2)) (by rw [htake]; omega) hheadtake
          simp only at hcols1 hout1
          subst hcols1
          subst hout1
          obtain ⟨⟨out2, cols2, calls2⟩, hr2, hcols2, d2, hout2, hrows2⟩ :=
            handle_cols_invariant predict bad realRow inCols outCols H1 H2 fuel
              ((a :: tl).drop ((a :: tl).length / 2)) (by rw [hdrop]; omega)
          simp only at hcols2 hout2
          subst hcols2
          subst hout2
          refine ⟨⟨.ok (DF.concat d1 d2), some outCols,
            ⟨inCols, a :: tl⟩ :: calls1 ++ calls2⟩, ?_, rfl, DF.concat d1 d2, rfl, ?_⟩
          · simp only [endpoint_error_handling, hp, he, if_false, h1, if_neg,
              DF.takeRows, DF.dropRows, hr1, hr2]
          · show (DF.concat d1 d2).rows = _
            simp only [DF.concat]
            rw [hrows1, hrows2, ← List.map_append, List.take_append_drop]

/-- C3: the claim asserts the bisection returns N placeholder-or-real rows
for an arbitrary bad subset S.  False when S contains the first row and no
known-good column shape was captured yet: the left half is recursed first,
so the singleton for row 0 is reached before any successful call, and with
endpoint_return_columns still None the data error is re-raised instead of
padded.  Concretely: a 2-row batch whose first row is the bad one obeys the
failure model (the good singleton would succeed, every batch containing
the bad row fails with a data error), yet the call returns the error after
submitting [both rows] and then [row 0], instead of 2 result rows. -/
theorem C3_counterexample :
    testPredict df1good = .ok ⟨[colX, colPred], [realRowFix (mkRow 1)]⟩ ∧
    testPredict df2bad0 = .error ⟨"DataError"⟩ ∧
    testPredict df1bad = .error ⟨"DataError"⟩ ∧
    endpoint_error_handling testPredict 3 none df2bad0 =
      some ⟨.error ⟨"DataError"⟩, none, [df2bad0, df1bad]⟩ :=
  ⟨rfl, rfl, rfl, rfl⟩

/-- C3 (amended): for a batch of N rows with bad subset S (every batch
containing a row of S fails with a per-row data error, every other batch
succeeds with one real result row per input row), and the first row of the
batch not in S (so that a successful call captures the return-column shape
before the first bad singleton is reached; with no previously captured
shape and the first row bad, the call instead re-raises), the bisection
returns exactly N result rows in the original input order, each row of S
replaced by the placeholder failure row and every other row carrying its
real prediction result. -/
theorem C3_bisection_rows
    (predict : DF → Except ClientErr DF) (bad : DFRow → Bool)
    (realRow : DFRow → DFRow) (inCols outCols : List String)
    (H1 : ∀ rows : List DFRow, rows.any bad = true →
       ∃ e, predict ⟨inCols, rows⟩ = .error e ∧ e.code ≠ "ModelError")
    (H2 : ∀ rows : List DFRow, rows.any bad = false →
       predict ⟨inCols, rows⟩ = .ok ⟨outCols, rows.map realRow⟩)
    (fuel : Nat) (rows : List DFRow) (hfuel : rows.length + 1 ≤ fuel)
    (hhead : ∀ r0, rows.head? = some r0 → bad r0 = false) :
    ∃ r, endpoint_error_handling predict fuel none ⟨inCols, rows⟩ = some r ∧
      r.cols = some outCols ∧
      ∃ d, r.out = .ok d ∧
        d.rows.length = rows.length ∧
        d.rows = rows.map (resultRow bad realRow inCols outCols) := by
  obtain ⟨r, hr, hcols, d, hout, hrows⟩ :=
    handle_head_good predict bad realRow inCols outCols H1 H2 fuel rows hfuel hhead
  refine ⟨r, hr, hcols, d, hout, ?_, hrows⟩
  rw [hrows]
  simp

/-- Witness for C3_bisection_rows: the 4-row fixture batch whose third row
is bad, with the fixture predictor obeying the failure model. -/
theorem C3_bisection_rows_witness :
    df4.rows.length + 1 ≤ 5 ∧
    (∀ r0, df4.rows.head? = some r0 → badRowFix r0 = false) ∧
    ∃ r, endpoint_error_handling testPredict 5 none ⟨[colX], df4.rows⟩ = some r ∧
      r.cols = some [colX, colPred] ∧
      ∃ d, r.out = .ok d ∧
        d.rows.length = df4.rows.length ∧
        d.rows = df4.rows.map (resultRow badRowFix realRowFix [colX] [colX, colPred]) := by
  refine ⟨by decide, ?_, ?_⟩
  · intro r0 h
    rw [← Option.some_inj.mp h]
    decide
  · refine C3_bisection_rows testPredict badRowFix realRowFix [colX] [colX, colPred]
      ?_ ?_ 5 df4.rows (by decide) ?_
    · intro rows h
      exact ⟨⟨"DataError"⟩, by simp [testPredict, h], by decide⟩
    · intro rows h
      simp [testPredict, h]
    · intro r0 h
      rw [← Option.some_inj.mp h]
      decide
